import Mathlib

/-!
Verification of `backend/open_webui/apps/retrieval/utils.py`.

The Python functions are embedded shallowly:

* Python `list` becomes `List`, dict-shaped query results become the
  `QueryResult` structure (its three fields model the `"distances"`,
  `"documents"` and `"metadatas"` entries, each a list of rows).
* `data["distances"][0]` raises `IndexError` on an empty outer list, so the
  row-0 access is modelled by `row0 : List (List a) -> Option (List a)` and
  the functions that perform it return `Option` / `Except`.
* Python `list.sort(key=..., reverse=...)` is a stable sort; any stable sort
  by the same key computes the same list, so it is modelled by Mathlib's
  (stable) `List.insertionSort` with the key relation `sortKeyLe`.
* Python strings are modelled as `List Char`; `str.replace` (all
  non-overlapping occurrences, left to right) is `pyReplace` and the
  substring test `sub in s` is `pyContains`.  `uuid.uuid4()` results are
  passed in as parameters.
* Distances and scores (Python floats) are modelled by a linearly ordered
  type (`Rat` in concrete instances); document and metadata payloads are
  opaque type parameters.
-/

namespace Retrieval

/-- One query-result dictionary: the `"distances"`, `"documents"` and
`"metadatas"` entries, each a list of rows. -/
structure QueryResult (α β γ : Type) where
  distances : List (List α)
  documents : List (List β)
  metadatas : List (List γ)
deriving DecidableEq, Repr

/-- Models the Python row access `data[key][0]`, which raises `IndexError`
on an empty outer list. -/
def row0 {α : Type} : List (List α) → Option (List α)
  | [] => none
  | r :: _ => some r

/-- Models the accumulation loop of `merge_and_sort_query_results`
(`combined_distances.extend(data["distances"][0])` and the two sibling
lines): the row-0 lists of all inputs are concatenated in order; a missing
row makes the whole call fail. -/
def combineRows {α β γ : Type} : List (QueryResult α β γ) → Option (List α × List β × List γ)
  | [] => some ([], [], [])
  | q :: rest =>
    (row0 q.distances).bind fun d =>
    (row0 q.documents).bind fun doc =>
    (row0 q.metadatas).bind fun m =>
    (combineRows rest).bind fun acc =>
    some (d ++ acc.1, doc ++ acc.2.1, m ++ acc.2.2)

/-- Models Python `zip(a, b, c)`: truncates to the shortest input. -/
def zip3 {α β γ : Type} : List α → List β → List γ → List (α × β × γ)
  | x :: xs, y :: ys, z :: zs => (x, y, z) :: zip3 xs ys zs
  | _, _, _ => []

/-- Models Python `zip(*combined)` on a non-empty list of triples. -/
def unzip3 {α β γ : Type} : List (α × β × γ) → List α × List β × List γ
  | [] => ([], [], [])
  | (x, y, z) :: rest =>
    let u := unzip3 rest
    (x :: u.1, y :: u.2.1, z :: u.2.2)

/-- Row 0 of the `"distances"` entry of a query result, as a plain list
(the inputs the claims quantify over always have the row). -/
def dRow {α β γ : Type} (q : QueryResult α β γ) : List α := q.distances.headD []

/-- Row 0 of the `"documents"` entry of a query result. -/
def docRow {α β γ : Type} (q : QueryResult α β γ) : List β := q.documents.headD []

/-- Row 0 of the `"metadatas"` entry of a query result. -/
def mRow {α β γ : Type} (q : QueryResult α β γ) : List γ := q.metadatas.headD []

/-- The (distance, document, metadata) triples that appear together, one per
index, in the row-0 arrays of one query result. -/
def inputItems {α β γ : Type} (q : QueryResult α β γ) : List (α × β × γ) :=
  zip3 (dRow q) (docRow q) (mRow q)

/-- The row-0 arrays of every input are parallel: all three have the same
length. -/
def WellFormed {α β γ : Type} (results : List (QueryResult α β γ)) : Prop :=
  ∀ q ∈ results,
    (dRow q).length = (docRow q).length ∧ (docRow q).length = (mRow q).length

instance wellFormedDecidable {α β γ : Type} (results : List (QueryResult α β γ)) :
    Decidable (WellFormed results) := by
  unfold WellFormed
  infer_instance

/-- Total number of row-0 distances over all inputs. -/
def totalDistances {α β γ : Type} (results : List (QueryResult α β γ)) : Nat :=
  (results.map (fun q => (dRow q).length)).sum

/-- Total number of row-0 documents over all inputs. -/
def totalDocuments {α β γ : Type} (results : List (QueryResult α β γ)) : Nat :=
  (results.map (fun q => (docRow q).length)).sum

/-- Total number of row-0 metadatas over all inputs. -/
def totalMetadatas {α β γ : Type} (results : List (QueryResult α β γ)) : Nat :=
  (results.map (fun q => (mRow q).length)).sum

/-- The comparison used by `combined.sort(key=lambda x: x[0], reverse=reverse)`:
compare triples by their first component, reversed when `reverse` is set. -/
def sortKeyLe {α β γ : Type} [LinearOrder α] : Bool → (α × β × γ) → (α × β × γ) → Prop
  | false, x, y => x.1 ≤ y.1
  | true, x, y => y.1 ≤ x.1

instance sortKeyLeDecidable {α β γ : Type} [LinearOrder α] (reverse : Bool) :
    DecidableRel (@sortKeyLe α β γ _ reverse) := fun x y => by
  cases reverse
  · exact inferInstanceAs (Decidable (x.1 ≤ y.1))
  · exact inferInstanceAs (Decidable (y.1 ≤ x.1))

instance sortKeyLeTotal {α β γ : Type} [LinearOrder α] (reverse : Bool) :
    IsTotal (α × β × γ) (sortKeyLe reverse) := by
  constructor
  intro a b
  cases reverse
  · exact le_total a.1 b.1
  · exact le_total b.1 a.1

instance sortKeyLeTrans {α β γ : Type} [LinearOrder α] (reverse : Bool) :
    IsTrans (α × β × γ) (sortKeyLe reverse) := by
  constructor
  intro a b c hab hbc
  cases reverse
  · exact le_trans hab hbc
  · exact le_trans hbc hab

/-- The strict version of `sortKeyLe`: the keys compare strictly.  Two
sorted lists with pairwise distinct keys are sorted for this relation. -/
def sortKeyLt {α β γ : Type} [LinearOrder α] : Bool → (α × β × γ) → (α × β × γ) → Prop
  | false, x, y => x.1 < y.1
  | true, x, y => y.1 < x.1

/-- Embeds `merge_and_sort_query_results` (utils.py lines 146-186):
concatenate the row-0 lists, zip them into triples, sort by distance with a
stable sort (ascending, or descending when `reverse`), unzip, slice each
component to `k`, and wrap each component as the single row of the output. -/
def merge_and_sort_query_results {α β γ : Type} [LinearOrder α]
    (query_results : List (QueryResult α β γ)) (k : Nat) (reverse : Bool) :
    Option (QueryResult α β γ) :=
  match combineRows query_results with
  | none => none
  | some (combined_distances, combined_documents, combined_metadatas) =>
    let combined := List.insertionSort (sortKeyLe reverse)
      (zip3 combined_distances combined_documents combined_metadatas)
    let sorted :=
      if combined.isEmpty then (([] : List α), ([] : List β), ([] : List γ))
      else
        let u := unzip3 combined
        (u.1.take k, u.2.1.take k, u.2.2.take k)
    some ⟨[sorted.1], [sorted.2.1], [sorted.2.2]⟩

/-- The loop body of `query_collection_with_hybrid_search`: a successful
per-collection query appends its result, a failing one sets the error flag. -/
def hybridStep {ι α β γ : Type} (queryDoc : ι → Except Unit (QueryResult α β γ))
    (acc : List (QueryResult α β γ) × Bool) (collection_name : ι) :
    List (QueryResult α β γ) × Bool :=
  match queryDoc collection_name with
  | Except.ok result => (acc.1 ++ [result], acc.2)
  | Except.error _ => (acc.1, true)

/-- Embeds `query_collection_with_hybrid_search` (utils.py lines 215-247).
`queryDoc` abstracts `query_doc_with_hybrid_search`, which either returns a
result dictionary or raises.  After the loop, the function raises the
fallback error whenever the error flag was set, and otherwise fuses the
collected results with `reverse=True` (a malformed fused input would raise
`IndexError` inside the fusion). -/
def query_collection_with_hybrid_search {ι α β γ : Type} [LinearOrder α]
    (queryDoc : ι → Except Unit (QueryResult α β γ))
    (collection_names : List ι) (k : Nat) : Except String (QueryResult α β γ) :=
  let st := collection_names.foldl (hybridStep queryDoc)
    (([] : List (QueryResult α β γ)), false)
  if st.2 then
    Except.error "Hybrid search failed for all collections. Using Non hybrid search as fallback."
  else
    match merge_and_sort_query_results st.1 k true with
    | some result => Except.ok result
    | none => Except.error "IndexError"

/-- Models Python `sub in s` on strings (contiguous substring test). -/
def pyContains : List Char → List Char → Bool
  | [], sub => sub.isEmpty
  | c :: rest, sub => sub.isPrefixOf (c :: rest) || pyContains rest sub

/-- Fuel-bounded worker for `pyReplace`; the fuel is the length of the
remaining string, which strictly decreases at every step. -/
def pyReplaceAux (old new : List Char) : Nat → List Char → List Char
  | 0, s => s
  | _ + 1, [] => []
  | fuel + 1, c :: rest =>
    if old.isPrefixOf (c :: rest) && !old.isEmpty then
      new ++ pyReplaceAux old new fuel ((c :: rest).drop old.length)
    else
      c :: pyReplaceAux old new fuel rest

/-- Models Python `s.replace(old, new)`: every non-overlapping occurrence of
`old` in `s`, scanned left to right, is replaced by `new`.  (The source only
ever calls it with a non-empty `old`; for an empty `old` this model returns
`s` unchanged.) -/
def pyReplace (s old new : List Char) : List Char :=
  pyReplaceAux old new s.length s

/-- Embeds `rag_template` (utils.py lines 250-285).  The two `uuid.uuid4()`
draws are passed in as `uuid1` and `uuid2`, and `DEFAULT_RAG_TEMPLATE`
(imported from config, outside this file) as `default_rag_template`; the
log-only warnings of the source are omitted.  All replacements happen in
the order of the source: guard placeholders, then `[context]`/`{{CONTEXT}}`,
then `[query]`/`{{QUERY}}`, then the guard placeholders themselves. -/
def rag_template (default_rag_template uuid1 uuid2 : List Char)
    (template0 context query : List Char) : List Char :=
  let template := if template0.isEmpty then default_rag_template else template0
  let qtok := "[query]".toList
  let qtok2 := "\x7b\x7bQUERY\x7d\x7d".toList
  let ph1 := "\x7b\x7bQUERY".toList ++ uuid1 ++ "\x7d\x7d".toList
  let ph2 := "\x7b\x7bQUERY".toList ++ uuid2 ++ "\x7d\x7d".toList
  let template := if pyContains context qtok then pyReplace template qtok ph1 else template
  let query_placeholders := if pyContains context qtok then [ph1] else []
  let template := if pyContains context qtok2 then pyReplace template qtok2 ph2 else template
  let query_placeholders :=
    query_placeholders ++ (if pyContains context qtok2 then [ph2] else [])
  let template := pyReplace template "[context]".toList context
  let template := pyReplace template "\x7b\x7bCONTEXT\x7d\x7d".toList context
  let template := pyReplace template qtok query
  let template := pyReplace template qtok2 query
  query_placeholders.foldl (fun t ph => pyReplace t ph query) template

/-- The closures produced by `get_embedding_function`, reduced to which
branch built them and the configuration they capture. -/
inductive EmbeddingFn where
  | sentence_transformer : EmbeddingFn
  | batched : String → EmbeddingFn
  | nvidia : String → EmbeddingFn
deriving DecidableEq, Repr

/-- Embeds the branch structure of `get_embedding_function` (utils.py lines
288-328): the empty engine uses the local sentence-transformers model,
`"ollama"`/`"openai"` get the batching wrapper, `"nvidia"` gets the
NVIDIA closure, and anything else raises `ValueError`. -/
def get_embedding_function (embedding_engine embedding_model : String) :
    Except String EmbeddingFn :=
  if embedding_engine = "" then
    Except.ok EmbeddingFn.sentence_transformer
  else if embedding_engine = "ollama" ∨ embedding_engine = "openai" then
    Except.ok (EmbeddingFn.batched embedding_engine)
  else if embedding_engine = "nvidia" then
    Except.ok (EmbeddingFn.nvidia embedding_model)
  else
    Except.error ("Unsupported embedding engine: " ++ embedding_engine)

/-- Embeds `get_query_embeddings` (utils.py lines 69-74).  The Python
`embedding_function` is called either as `f(query, is_query=is_query)` or as
`f(query)`; the model passes `some is_query` in the first shape and `none`
in the second. -/
def get_query_embeddings {Q E : Type} (query : Q) (is_query : Bool)
    (embedding_engine : List Char) (embedding_function : Q → Option Bool → E) : E :=
  if pyContains embedding_engine "nvidia".toList then
    embedding_function query (some is_query)
  else
    embedding_function query none

/-- Models the retrieval branch of `get_rag_context` (utils.py lines
376-402) for one file's collections.  Source line 400 is not syntactically
valid Python (the positional arguments `embedding_engine` and
`embedding_function` follow the keyword argument `is_query=True`), so this
definition follows the evident intent, reading the call as
`get_query_embeddings(query, is_query=True, embedding_engine=...,
embedding_function=...)`.  `hybridResult` abstracts the outcome of
`query_collection_with_hybrid_search` and `query_collection` the plain
search applied to the query embedding. -/
def get_rag_context_retrieve {Q E R : Type} (hybrid_search : Bool)
    (hybridResult : Except String R) (query : Q) (embedding_engine : List Char)
    (embedding_function : Q → Option Bool → E) (query_collection : E → R) :
    Option R :=
  let context : Option R :=
    if hybrid_search then
      match hybridResult with
      | Except.ok r => some r
      | Except.error _ => none
    else none
  if !hybrid_search || context.isNone then
    some (query_collection (get_query_embeddings query true embedding_engine embedding_function))
  else
    context

/-- The filtering step of `RerankCompressor.compress_documents` (utils.py
lines 599-602): Python's `if self.r_score:` keeps the filter only for a
truthy (non-zero) threshold, and the comprehension keeps the pairs with
`s >= self.r_score`. -/
def rerankFilter {D : Type} (r_score : ℚ) (docs_with_scores : List (D × ℚ)) :
    List (D × ℚ) :=
  if r_score ≠ 0 then
    docs_with_scores.filter (fun ds => decide (r_score ≤ ds.2))
  else
    docs_with_scores

/-- Embeds `RerankCompressor.compress_documents` (utils.py lines 577-614)
after the scores have been produced: zip documents with their scores,
apply the threshold filter, sort by score descending
(`sorted(..., key=operator.itemgetter(1), reverse=True)`, stable), and keep
the first `top_n`. -/
def compress_documents {D : Type} (documents : List D) (scores : List ℚ)
    (r_score : ℚ) (top_n : Nat) : List (D × ℚ) :=
  let docs_with_scores := documents.zip scores
  let filtered := rerankFilter r_score docs_with_scores
  let result := List.insertionSort (fun x y => y.2 ≤ x.2) filtered
  result.take top_n

/-! Concrete inputs used by the counterexamples and witnesses. -/

/-- A collection result holding one item with distance 0 and document 1. -/
def exTieA : QueryResult Int Nat Nat := ⟨[[0]], [[1]], [[1]]⟩

/-- A collection result holding one item with distance 0 and document 2. -/
def exTieB : QueryResult Int Nat Nat := ⟨[[0]], [[2]], [[2]]⟩

/-- A collection result with two items, distances out of order. -/
def exPair : QueryResult Int Nat Nat := ⟨[[3, 1]], [[10, 20]], [[5, 6]]⟩

/-- A per-collection hybrid query in which collection 0 succeeds and every
other collection raises. -/
def exQueryDoc : Nat → Except Unit (QueryResult Int Nat Nat) :=
  fun n => if n = 0 then Except.ok ⟨[[1]], [[10]], [[100]]⟩ else Except.error ()

/-- A concrete value standing for one `uuid.uuid4()` draw. -/
def exUuid1 : List Char := "123e4567-e89b-12d3-a456-426614174000".toList

/-- A concrete value standing for a second, distinct `uuid.uuid4()` draw. -/
def exUuid2 : List Char := "00000000-0000-4000-8000-000000000001".toList

/-- A ragged collection result: the three row-0 arrays have lengths 2, 1
and 3. -/
def exRagged : QueryResult Int Nat Nat := ⟨[[1, 2]], [[5]], [[7, 8, 9]]⟩

/-! Helper lemmas. -/

theorem row0_headD {α : Type} {l : List (List α)} {r : List α}
    (h : row0 l = some r) : l.headD [] = r := by
  cases l with
  | nil => exact absurd h (by simp [row0])
  | cons a t =>
    simp only [row0, Option.some.injEq] at h
    simp [h]

theorem zip3_length {α β γ : Type} :
    ∀ (xs : List α) (ys : List β) (zs : List γ),
      (zip3 xs ys zs).length = min xs.length (min ys.length zs.length) := by
  intro xs
  induction xs with
  | nil => intro ys zs; cases ys <;> cases zs <;> simp [zip3]
  | cons x xs ih =>
    intro ys zs
    cases ys with
    | nil => cases zs <;> simp [zip3]
    | cons y ys =>
      cases zs with
      | nil => simp [zip3]
      | cons z zs =>
        simp only [zip3, List.length_cons, ih]
        omega

theorem zip3_append {α β γ : Type} :
    ∀ (xs : List α) (ys : List β) (zs : List γ)
      (xs2 : List α) (ys2 : List β) (zs2 : List γ),
      xs.length = ys.length → ys.length = zs.length →
      zip3 (xs ++ xs2) (ys ++ ys2) (zs ++ zs2) =
        zip3 xs ys zs ++ zip3 xs2 ys2 zs2 := by
  intro xs
  induction xs with
  | nil =>
    intro ys zs xs2 ys2 zs2 h1 h2
    cases ys with
    | nil =>
      cases zs with
      | nil => simp [zip3]
      | cons z zs => simp at h2
    | cons y ys => simp at h1
  | cons x xs ih =>
    intro ys zs xs2 ys2 zs2 h1 h2
    cases ys with
    | nil => simp at h1
    | cons y ys =>
      cases zs with
      | nil => simp at h2
      | cons z zs =>
        simp only [List.cons_append, zip3, List.append_eq]
        rw [ih ys zs xs2 ys2 zs2 (by simpa using h1) (by simpa using h2)]

theorem zip3_map_fst {α β γ : Type} :
    ∀ (xs : List α) (ys : List β) (zs : List γ),
      xs.length = ys.length → ys.length = zs.length →
      (zip3 xs ys zs).map (fun t => t.1) = xs := by
  intro xs
  induction xs with
  | nil => intro ys zs h1 h2; cases ys <;> cases zs <;> simp [zip3]
  | cons x xs ih =>
    intro ys zs h1 h2
    cases ys with
    | nil => simp at h1
    | cons y ys =>
      cases zs with
      | nil => simp at h2
      | cons z zs =>
        simp only [zip3, List.map_cons]
        rw [ih ys zs (by simpa using h1) (by simpa using h2)]

theorem zip3_map_snd {α β γ : Type} :
    ∀ (xs : List α) (ys : List β) (zs : List γ),
      xs.length = ys.length → ys.length = zs.length →
      (zip3 xs ys zs).map (fun t => t.2.1) = ys := by
  intro xs
  induction xs with
  | nil =>
    intro ys zs h1 h2
    cases ys with
    | nil => simp [zip3]
    | cons y ys => simp at h1
  | cons x xs ih =>
    intro ys zs h1 h2
    cases ys with
    | nil => simp at h1
    | cons y ys =>
      cases zs with
      | nil => simp at h2
      | cons z zs =>
        simp only [zip3, List.map_cons]
        rw [ih ys zs (by simpa using h1) (by simpa using h2)]

theorem zip3_map_thd {α β γ : Type} :
    ∀ (xs : List α) (ys : List β) (zs : List γ),
      xs.length = ys.length → ys.length = zs.length →
      (zip3 xs ys zs).map (fun t => t.2.2) = zs := by
  intro xs
  induction xs with
  | nil =>
    intro ys zs h1 h2
    cases ys with
    | nil =>
      cases zs with
      | nil => simp [zip3]
      | cons z zs => simp at h2
    | cons y ys => simp at h1
  | cons x xs ih =>
    intro ys zs h1 h2
    cases ys with
    | nil => simp at h1
    | cons y ys =>
      cases zs with
      | nil => simp at h2
      | cons z zs =>
        simp only [zip3, List.map_cons]
        rw [ih ys zs (by simpa using h1) (by simpa using h2)]

theorem unzip3_eq_maps {α β γ : Type} :
    ∀ (l : List (α × β × γ)),
      unzip3 l =
        (l.map (fun t => t.1), l.map (fun t => t.2.1), l.map (fun t => t.2.2)) := by
  intro l
  induction l with
  | nil => simp [unzip3]
  | cons p rest ih =>
    obtain ⟨x, y, z⟩ := p
    simp [unzip3, ih]

theorem combineRows_eq_flatten {α β γ : Type} :
    ∀ {results : List (QueryResult α β γ)} {cd : List α} {cdoc : List β} {cm : List γ},
      combineRows results = some (cd, cdoc, cm) →
      cd = (results.map dRow).flatten ∧
      cdoc = (results.map docRow).flatten ∧
      cm = (results.map mRow).flatten := by
  intro results
  induction results with
  | nil =>
    intro cd cdoc cm h
    simp only [combineRows, Option.some.injEq, Prod.mk.injEq] at h
    simp [← h.1, ← h.2.1, ← h.2.2]
  | cons q rest ih =>
    intro cd cdoc cm h
    simp only [combineRows, Option.bind_eq_some, Option.some.injEq, Prod.mk.injEq] at h
    obtain ⟨d, hd, doc, hdoc, m, hm, acc, hacc, h1, h2, h3⟩ := h
    obtain ⟨ds, docs, ms⟩ := acc
    obtain ⟨e1, e2, e3⟩ := ih hacc
    subst h1 h2 h3
    simp only [List.map_cons, List.flatten_cons]
    refine ⟨?_, ?_, ?_⟩
    · rw [dRow, row0_headD hd, ← e1]
    · rw [docRow, row0_headD hdoc, ← e2]
    · rw [mRow, row0_headD hm, ← e3]

theorem combineRows_isSome_iff {α β γ : Type} :
    ∀ (results : List (QueryResult α β γ)),
      (combineRows results).isSome = true ↔
        ∀ q ∈ results,
          (row0 q.distances).isSome = true ∧ (row0 q.documents).isSome = true ∧
          (row0 q.metadatas).isSome = true := by
  intro results
  induction results with
  | nil => simp [combineRows]
  | cons q rest ih =>
    cases h1 : row0 q.distances <;> cases h2 : row0 q.documents <;>
      cases h3 : row0 q.metadatas <;> cases h4 : combineRows rest <;>
      rw [h4] at ih <;>
      simp_all [combineRows]

theorem combined_items_eq {α β γ : Type} :
    ∀ {results : List (QueryResult α β γ)} {cd : List α} {cdoc : List β} {cm : List γ},
      WellFormed results → combineRows results = some (cd, cdoc, cm) →
      zip3 cd cdoc cm = results.flatMap inputItems := by
  intro results
  induction results with
  | nil =>
    intro cd cdoc cm _ h
    simp only [combineRows, Option.some.injEq, Prod.mk.injEq] at h
    simp [← h.1, ← h.2.1, ← h.2.2, zip3]
  | cons q rest ih =>
    intro cd cdoc cm hwf h
    simp only [combineRows, Option.bind_eq_some, Option.some.injEq, Prod.mk.injEq] at h
    obtain ⟨d, hd, doc, hdoc, m, hm, acc, hacc, h1, h2, h3⟩ := h
    obtain ⟨ds, docs, ms⟩ := acc
    subst h1 h2 h3
    have hq := hwf q (List.mem_cons_self q rest)
    have hdr : dRow q = d := by rw [dRow, row0_headD hd]
    have hdocr : docRow q = doc := by rw [docRow, row0_headD hdoc]
    have hmr : mRow q = m := by rw [mRow, row0_headD hm]
    rw [hdr, hdocr, hmr] at hq
    rw [zip3_append d doc m ds docs ms hq.1 hq.2]
    rw [ih (fun p hp => hwf p (List.mem_cons_of_mem q hp)) hacc]
    simp [List.flatMap_cons, inputItems, hdr, hdocr, hmr]

theorem merge_eq_some {α β γ : Type} [LinearOrder α]
    {results : List (QueryResult α β γ)} {cd : List α} {cdoc : List β} {cm : List γ}
    (h : combineRows results = some (cd, cdoc, cm)) (k : Nat) (reverse : Bool) :
    merge_and_sort_query_results results k reverse =
      some
        ⟨[((List.insertionSort (sortKeyLe reverse) (zip3 cd cdoc cm)).take k).map
            (fun t => t.1)],
         [((List.insertionSort (sortKeyLe reverse) (zip3 cd cdoc cm)).take k).map
            (fun t => t.2.1)],
         [((List.insertionSort (sortKeyLe reverse) (zip3 cd cdoc cm)).take k).map
            (fun t => t.2.2)]⟩ := by
  unfold merge_and_sort_query_results
  rw [h]
  by_cases hs :
      (List.insertionSort (sortKeyLe reverse) (zip3 cd cdoc cm)).isEmpty = true
  · have he := List.isEmpty_iff.mp hs
    simp [hs, he]
  · simp only [Bool.not_eq_true] at hs
    simp [hs, unzip3_eq_maps, List.map_take]

theorem combined_lengths_eq {α β γ : Type}
    {results : List (QueryResult α β γ)} {cd : List α} {cdoc : List β} {cm : List γ}
    (hwf : WellFormed results) (hc : combineRows results = some (cd, cdoc, cm)) :
    cd.length = cdoc.length ∧ cdoc.length = cm.length := by
  obtain ⟨e1, e2, e3⟩ := combineRows_eq_flatten hc
  subst e1 e2 e3
  rw [List.length_flatten, List.length_flatten, List.length_flatten,
    List.map_map, List.map_map, List.map_map]
  constructor
  · exact congrArg List.sum (List.map_congr_left (fun q hq => (hwf q hq).1))
  · exact congrArg List.sum (List.map_congr_left (fun q hq => (hwf q hq).2))

theorem combined_length_distances {α β γ : Type}
    {results : List (QueryResult α β γ)} {cd : List α} {cdoc : List β} {cm : List γ}
    (hc : combineRows results = some (cd, cdoc, cm)) :
    cd.length = totalDistances results ∧ cdoc.length = totalDocuments results ∧
    cm.length = totalMetadatas results := by
  obtain ⟨e1, e2, e3⟩ := combineRows_eq_flatten hc
  subst e1 e2 e3
  rw [List.length_flatten, List.length_flatten, List.length_flatten,
    List.map_map, List.map_map, List.map_map]
  exact ⟨rfl, rfl, rfl⟩

theorem sorted_eq_of_perm_nodup_keys {α β γ : Type} [LinearOrder α] (reverse : Bool)
    {l1 l2 : List (α × β × γ)} (hp : l1.Perm l2)
    (hs1 : List.Sorted (sortKeyLe reverse) l1)
    (hs2 : List.Sorted (sortKeyLe reverse) l2)
    (hnd : (l1.map (fun t => t.1)).Nodup) : l1 = l2 := by
  have hnd2 : (l2.map (fun t => t.1)).Nodup := ((hp.map (fun t => t.1)).nodup_iff).mp hnd
  have hne1 : l1.Pairwise (fun a b => a.1 ≠ b.1) := List.pairwise_map.mp hnd
  have hne2 : l2.Pairwise (fun a b => a.1 ≠ b.1) := List.pairwise_map.mp hnd2
  have hp1 : l1.Pairwise (sortKeyLe reverse) := hs1
  have hp2 : l2.Pairwise (sortKeyLe reverse) := hs2
  have himp : ∀ {a b : α × β × γ},
      (fun x y : α × β × γ => sortKeyLe reverse x y ∧ x.1 ≠ y.1) a b →
        sortKeyLt reverse a b := by
    intro a b hab
    cases reverse
    · exact lt_of_le_of_ne hab.1 hab.2
    · exact lt_of_le_of_ne hab.1 (Ne.symm hab.2)
  have hlt1 : l1.Pairwise (sortKeyLt reverse) := (hp1.and hne1).imp himp
  have hlt2 : l2.Pairwise (sortKeyLt reverse) := (hp2.and hne2).imp himp
  haveI : IsAntisymm (α × β × γ) (sortKeyLt reverse) := by
    constructor
    intro a b hab hba
    cases reverse
    · exact absurd hba (lt_asymm hab)
    · exact absurd hba (lt_asymm hab)
  exact List.eq_of_perm_of_sorted hp hlt1 hlt2

theorem hybrid_foldl_eq {ι α β γ : Type}
    (queryDoc : ι → Except Unit (QueryResult α β γ)) :
    ∀ (names : List ι) (acc : List (QueryResult α β γ)) (flag : Bool),
      names.foldl (hybridStep queryDoc) (acc, flag) =
        (acc ++ names.filterMap (fun c => (queryDoc c).toOption),
         flag || names.any (fun c => !(queryDoc c).isOk)) := by
  intro names
  induction names with
  | nil => intro acc flag; simp
  | cons c rest ih =>
    intro acc flag
    cases hqd : queryDoc c with
    | ok r =>
      simp [List.foldl_cons, hybridStep, hqd, ih, Except.toOption, Except.isOk,
        Except.toBool]
    | error e =>
      simp [List.foldl_cons, hybridStep, hqd, ih, Except.toOption, Except.isOk,
        Except.toBool]

theorem query_hybrid_eq {ι α β γ : Type} [LinearOrder α]
    (queryDoc : ι → Except Unit (QueryResult α β γ))
    (collection_names : List ι) (k : Nat) :
    query_collection_with_hybrid_search queryDoc collection_names k =
      if collection_names.any (fun c => !(queryDoc c).isOk) then
        Except.error
          "Hybrid search failed for all collections. Using Non hybrid search as fallback."
      else
        match
          merge_and_sort_query_results
            (collection_names.filterMap (fun c => (queryDoc c).toOption)) k true with
        | some result => Except.ok result
        | none => Except.error "IndexError" := by
  unfold query_collection_with_hybrid_search
  rw [hybrid_foldl_eq queryDoc collection_names [] false]
  simp

/-! Claim theorems. -/

/-- C1 counterexample: with collections `[0, 1]`, collection 0 succeeds and
collection 1 fails, yet `query_collection_with_hybrid_search` raises the
"failed for all collections" error instead of returning the fusion of the
successful result — refuting the claim that the error is raised only when
every collection failed. -/
theorem C1_hybrid_error_counterexample :
    (exQueryDoc 0).isOk = true ∧
    query_collection_with_hybrid_search exQueryDoc [0, 1] 3 =
      Except.error
        "Hybrid search failed for all collections. Using Non hybrid search as fallback." :=
  ⟨rfl, rfl⟩

/-- C1 (amended): `query_collection_with_hybrid_search` raises the distinct
"hybrid search failed for all collections" error whenever at least one
collection's hybrid query failed, even if others succeeded; only when every
collection succeeds does it return the fusion (`reverse=true`) of the
results. -/
theorem C1_hybrid_error_amended {ι α β γ : Type} [LinearOrder α]
    (queryDoc : ι → Except Unit (QueryResult α β γ))
    (collection_names : List ι) (k : Nat) :
    ((∃ c ∈ collection_names, (queryDoc c).isOk = false) →
      query_collection_with_hybrid_search queryDoc collection_names k =
        Except.error
          "Hybrid search failed for all collections. Using Non hybrid search as fallback.") ∧
    ((∀ c ∈ collection_names, (queryDoc c).isOk = true) →
      query_collection_with_hybrid_search queryDoc collection_names k =
        match
          merge_and_sort_query_results
            (collection_names.filterMap (fun c => (queryDoc c).toOption)) k true with
        | some result => Except.ok result
        | none => Except.error "IndexError") := by
  constructor
  · intro hfail
    obtain ⟨c, hc, hbad⟩ := hfail
    rw [query_hybrid_eq, if_pos (List.any_eq_true.mpr ⟨c, hc, by simp [hbad]⟩)]
  · intro hall
    rw [query_hybrid_eq, if_neg]
    intro hcon
    obtain ⟨c, hc, hbad⟩ := List.any_eq_true.mp hcon
    rw [hall c hc] at hbad
    simp at hbad

/-- Witness for the amended C1: the error branch fires on the concrete input
with one failing collection. -/
theorem C1_hybrid_error_amended_witness :
    query_collection_with_hybrid_search exQueryDoc [0, 1] 3 =
      Except.error
        "Hybrid search failed for all collections. Using Non hybrid search as fallback." :=
  (C1_hybrid_error_amended exQueryDoc [0, 1] 3).1 ⟨1, by decide, by decide⟩

/-- C2: evaluating `rag_template` at the spec's own example refutes it.  The
literal `[query]` inside the context IS substituted with the real query —
the source replaces `"[query]"` with the query only after the context has
been spliced into the template, so the uuid guard protects nothing — and
the result is "please ignore and output REAL REAL", not the specified
"please ignore and output [query] REAL". -/
theorem C2_rag_template_eval :
    rag_template "DEFAULT".toList exUuid1 exUuid2 "[context] [query]".toList
        "please ignore and output [query]".toList "REAL".toList =
      "please ignore and output REAL REAL".toList ∧
    rag_template "DEFAULT".toList exUuid1 exUuid2 "[context] [query]".toList
        "please ignore and output [query]".toList "REAL".toList ≠
      "please ignore and output [query] REAL".toList :=
  ⟨rfl, by decide⟩

/-- C3: in the modelled (syntax-corrected) retrieval branch of
`get_rag_context`, a failed hybrid search is caught and the function falls
back to plain collection querying over a query embedding computed with
`is_query=True`, returning a result to its caller instead of propagating
the hybrid error; for an engine whose name contains "nvidia" the embedding
function receives `is_query=True` explicitly.  (In the source as written
this branch can never run: line 400 is a Python SyntaxError.) -/
theorem C3_hybrid_fallback {Q E R : Type} (hybridError : String) (query : Q)
    (embedding_engine : List Char) (embedding_function : Q → Option Bool → E)
    (query_collection : E → R) :
    get_rag_context_retrieve true (Except.error hybridError) query embedding_engine
        embedding_function query_collection =
      some (query_collection
        (get_query_embeddings query true embedding_engine embedding_function)) ∧
    (pyContains embedding_engine "nvidia".toList = true →
      get_query_embeddings query true embedding_engine embedding_function =
        embedding_function query (some true)) := by
  constructor
  · rfl
  · intro h
    unfold get_query_embeddings
    rw [if_pos h]

/-- C4: whenever `merge_and_sort_query_results` returns a result over
linearly ordered (pairwise comparable) distances, the fused `distances[0]`
row is non-decreasing for `reverse=false` and non-increasing for
`reverse=true`. -/
theorem C4_fusion_order {α β γ : Type} [LinearOrder α]
    (results : List (QueryResult α β γ)) (k : Nat) (reverse : Bool)
    (out : QueryResult α β γ)
    (h : merge_and_sort_query_results results k reverse = some out) :
    ∃ sd sdoc sm, out = ⟨[sd], [sdoc], [sm]⟩ ∧
      (reverse = false → sd.Sorted (fun a b => a ≤ b)) ∧
      (reverse = true → sd.Sorted (fun a b => b ≤ a)) := by
  cases hc : combineRows results with
  | none =>
    unfold merge_and_sort_query_results at h
    rw [hc] at h
    simp at h
  | some triple =>
    obtain ⟨cd, cdoc, cm⟩ := triple
    rw [merge_eq_some hc k reverse] at h
    obtain rfl := Option.some.inj h
    refine ⟨_, _, _, rfl, ?_, ?_⟩
    all_goals
      have hsorted : List.Sorted (sortKeyLe reverse)
          (List.insertionSort (sortKeyLe reverse) (zip3 cd cdoc cm)) :=
        List.sorted_insertionSort (sortKeyLe reverse) (zip3 cd cdoc cm)
    all_goals
      have htake := List.Pairwise.sublist
        (List.take_sublist k (List.insertionSort (sortKeyLe reverse) (zip3 cd cdoc cm)))
        hsorted
    · intro hrev
      subst hrev
      exact List.pairwise_map.mpr (htake.imp (fun hab => hab))
    · intro hrev
      subst hrev
      exact List.pairwise_map.mpr (htake.imp (fun hab => hab))

/-- Witness for C4 at a concrete input whose distances arrive out of
order. -/
theorem C4_fusion_order_witness :
    ∃ sd sdoc sm,
      (⟨[[1, 3]], [[20, 10]], [[6, 5]]⟩ : QueryResult Int Nat Nat) =
        ⟨[sd], [sdoc], [sm]⟩ ∧
      (false = false → sd.Sorted (fun a b => a ≤ b)) ∧
      (false = true → sd.Sorted (fun a b => b ≤ a)) :=
  C4_fusion_order [exPair] 5 false ⟨[[1, 3]], [[20, 10]], [[6, 5]]⟩ (by decide)

/-- C5: in `compress_documents` the filter stage `rerankFilter` keeps
exactly the scored candidates with score at least `r_score` when the
threshold is truthy (non-zero), and drops nothing when it is falsy
(zero). -/
theorem C5_rerank_threshold {D : Type} (documents : List D) (scores : List ℚ)
    (r_score : ℚ) (top_n : Nat) :
    compress_documents documents scores r_score top_n =
      (List.insertionSort (fun x y => y.2 ≤ x.2)
        (rerankFilter r_score (documents.zip scores))).take top_n ∧
    (r_score ≠ 0 →
      ∀ p : D × ℚ, p ∈ rerankFilter r_score (documents.zip scores) ↔
        p ∈ documents.zip scores ∧ r_score ≤ p.2) ∧
    (r_score = 0 → rerankFilter r_score (documents.zip scores) = documents.zip scores) := by
  refine ⟨rfl, ?_, ?_⟩
  · intro h p
    simp [rerankFilter, h, List.mem_filter]
  · intro h
    simp [rerankFilter, h]

/-- Witness for C5 at the spec's example: with threshold 1/2 the candidate
scored 9/10 is kept exactly because its score clears the threshold. -/
theorem C5_rerank_threshold_witness :
    ((1 : Nat), (9 : ℚ)/10) ∈
        rerankFilter (1/2) (([1, 2, 3] : List Nat).zip [(9 : ℚ)/10, 2/5, 1/10]) ↔
      ((1 : Nat), (9 : ℚ)/10) ∈ ([1, 2, 3] : List Nat).zip [(9 : ℚ)/10, 2/5, 1/10] ∧
        (1 : ℚ)/2 ≤ ((1 : Nat), (9 : ℚ)/10).2 :=
  (C5_rerank_threshold [1, 2, 3] [9/10, 2/5, 1/10] (1/2) 5).2.1 (by norm_num)
    ((1 : Nat), (9 : ℚ)/10)

/-- C6: for well-formed inputs the fused `documents[0]` row has length
`min k totalItems` and the other two rows have the same length; fusing the
empty list returns the dictionary with three empty rows without failing. -/
theorem C6_fusion_truncation {α β γ : Type} [LinearOrder α]
    (results : List (QueryResult α β γ)) (k : Nat) (reverse : Bool)
    (out : QueryResult α β γ) :
    (WellFormed results →
      merge_and_sort_query_results results k reverse = some out →
      ∃ sd sdoc sm, out = ⟨[sd], [sdoc], [sm]⟩ ∧
        sd.length = min k (totalDocuments results) ∧
        sdoc.length = sd.length ∧ sm.length = sd.length) ∧
    merge_and_sort_query_results ([] : List (QueryResult α β γ)) k reverse =
      some ⟨[[]], [[]], [[]]⟩ := by
  constructor
  · intro hwf h
    cases hc : combineRows results with
    | none =>
      unfold merge_and_sort_query_results at h
      rw [hc] at h
      simp at h
    | some triple =>
      obtain ⟨cd, cdoc, cm⟩ := triple
      rw [merge_eq_some hc k reverse] at h
      obtain rfl := Option.some.inj h
      refine ⟨_, _, _, rfl, ?_, ?_, ?_⟩
      all_goals
        have hslen :
            ((List.insertionSort (sortKeyLe reverse) (zip3 cd cdoc cm)).take k).length =
              min k (min cd.length (min cdoc.length cm.length)) := by
          rw [List.length_take,
            (List.perm_insertionSort (sortKeyLe reverse) (zip3 cd cdoc cm)).length_eq,
            zip3_length]
      all_goals
        obtain ⟨hwl1, hwl2⟩ := combined_lengths_eq hwf hc
      all_goals
        obtain ⟨ht1, ht2, ht3⟩ := combined_length_distances hc
      all_goals
        simp only [List.length_map, hslen]
      all_goals omega
  · rfl

/-- Witness for C6 at a well-formed concrete input with `k = 1`. -/
theorem C6_fusion_truncation_witness :
    ∃ sd sdoc sm,
      (⟨[[3]], [[10]], [[5]]⟩ : QueryResult Int Nat Nat) = ⟨[sd], [sdoc], [sm]⟩ ∧
      sd.length = min 1 (totalDocuments [exPair]) ∧
      sdoc.length = sd.length ∧ sm.length = sd.length :=
  (C6_fusion_truncation [exPair] 1 true ⟨[[3]], [[10]], [[5]]⟩).1 (by decide) (by decide)

/-- C7: every (distance, document, metadata) triple at an index of the
fused output appears together at one index of the row-0 arrays of one
input result — the three arrays are never reordered independently. -/
theorem C7_fusion_parallelism {α β γ : Type} [LinearOrder α]
    (results : List (QueryResult α β γ)) (k : Nat) (reverse : Bool)
    (out : QueryResult α β γ) (hwf : WellFormed results)
    (h : merge_and_sort_query_results results k reverse = some out) :
    ∃ sd sdoc sm, out = ⟨[sd], [sdoc], [sm]⟩ ∧
      ∀ i (h1 : i < sd.length) (h2 : i < sdoc.length) (h3 : i < sm.length),
        ∃ q ∈ results, (sd[i], sdoc[i], sm[i]) ∈ inputItems q := by
  cases hc : combineRows results with
  | none =>
    unfold merge_and_sort_query_results at h
    rw [hc] at h
    simp at h
  | some triple =>
    obtain ⟨cd, cdoc, cm⟩ := triple
    rw [merge_eq_some hc k reverse] at h
    obtain rfl := Option.some.inj h
    refine ⟨_, _, _, rfl, ?_⟩
    intro i h1 h2 h3
    have hi : i <
        ((List.insertionSort (sortKeyLe reverse) (zip3 cd cdoc cm)).take k).length := by
      simpa using h1
    have hmem :
        ((List.insertionSort (sortKeyLe reverse) (zip3 cd cdoc cm)).take k)[i] ∈
          zip3 cd cdoc cm := by
      have hin :
          ((List.insertionSort (sortKeyLe reverse) (zip3 cd cdoc cm)).take k)[i] ∈
            List.insertionSort (sortKeyLe reverse) (zip3 cd cdoc cm) :=
        (List.take_sublist k _).subset (List.getElem_mem hi)
      exact (List.perm_insertionSort (sortKeyLe reverse) (zip3 cd cdoc cm)).subset hin
    have hmem2 :
        ((List.insertionSort (sortKeyLe reverse) (zip3 cd cdoc cm)).take k)[i] ∈
          results.flatMap inputItems := by
      rw [← combined_items_eq hwf hc]
      exact hmem
    obtain ⟨q, hq, hqmem⟩ := List.mem_flatMap.mp hmem2
    refine ⟨q, hq, ?_⟩
    simp only [List.getElem_map]
    exact hqmem

/-- Witness for C7 at a concrete two-collection input with tied
distances. -/
theorem C7_fusion_parallelism_witness :
    ∃ sd sdoc sm,
      (⟨[[0, 0]], [[1, 2]], [[1, 2]]⟩ : QueryResult Int Nat Nat) =
        ⟨[sd], [sdoc], [sm]⟩ ∧
      ∀ i (h1 : i < sd.length) (h2 : i < sdoc.length) (h3 : i < sm.length),
        ∃ q ∈ [exTieA, exTieB], (sd[i], sdoc[i], sm[i]) ∈ inputItems q :=
  C7_fusion_parallelism [exTieA, exTieB] 2 false ⟨[[0, 0]], [[1, 2]], [[1, 2]]⟩
    (by decide) (by decide)

/-- C8 counterexample: two collections tie on distance 0; because the sort
is stable, swapping the two input results (a permutation) changes the fused
output, refuting the claim as stated. -/
theorem C8_fusion_perm_counterexample :
    [exTieB, exTieA].Perm [exTieA, exTieB] ∧
    merge_and_sort_query_results [exTieA, exTieB] 2 false ≠
      merge_and_sort_query_results [exTieB, exTieA] 2 false :=
  ⟨List.Perm.swap exTieA exTieB [], by decide⟩

/-- C8 (amended): fusion is insensitive to the order in which the
per-collection results arrive provided the inputs are well-formed and the
combined distances are pairwise distinct; with tied distances the stable
sort keeps ties in input order, as `C8_fusion_perm_counterexample` shows. -/
theorem C8_fusion_perm_invariance {α β γ : Type} [LinearOrder α]
    (results1 results2 : List (QueryResult α β γ)) (k : Nat) (reverse : Bool)
    (cd : List α) (cdoc : List β) (cm : List γ)
    (hperm : results1.Perm results2) (hwf : WellFormed results1)
    (hc : combineRows results1 = some (cd, cdoc, cm)) (hnd : cd.Nodup) :
    merge_and_sort_query_results results1 k reverse =
      merge_and_sort_query_results results2 k reverse := by
  have hwf2 : WellFormed results2 := fun q hq => hwf q (hperm.mem_iff.mpr hq)
  have hsome2 : (combineRows results2).isSome = true := by
    rw [combineRows_isSome_iff]
    intro q hq
    exact (combineRows_isSome_iff results1).mp (by rw [hc]; rfl) q (hperm.mem_iff.mpr hq)
  obtain ⟨t2, hc2⟩ := Option.isSome_iff_exists.mp hsome2
  obtain ⟨cd2, cdoc2, cm2⟩ := t2
  have hl1 := combined_lengths_eq hwf hc
  have hpermC : zip3 cd cdoc cm |>.Perm (zip3 cd2 cdoc2 cm2) := by
    rw [combined_items_eq hwf hc, combined_items_eq hwf2 hc2]
    exact hperm.flatMap_right inputItems
  have hmap1 : (zip3 cd cdoc cm).map (fun t => t.1) = cd :=
    zip3_map_fst cd cdoc cm hl1.1 hl1.2
  have hps1 := List.perm_insertionSort (sortKeyLe reverse) (zip3 cd cdoc cm)
  have hps2 := List.perm_insertionSort (sortKeyLe reverse) (zip3 cd2 cdoc2 cm2)
  have hs12 :
      (List.insertionSort (sortKeyLe reverse) (zip3 cd cdoc cm)).Perm
        (List.insertionSort (sortKeyLe reverse) (zip3 cd2 cdoc2 cm2)) :=
    hps1.trans (hpermC.trans hps2.symm)
  have hnds1 :
      ((List.insertionSort (sortKeyLe reverse) (zip3 cd cdoc cm)).map
        (fun t => t.1)).Nodup := by
    have hpm := hps1.map (fun t => t.1)
    rw [hmap1] at hpm
    exact hpm.nodup_iff.mpr hnd
  have heq :
      List.insertionSort (sortKeyLe reverse) (zip3 cd cdoc cm) =
        List.insertionSort (sortKeyLe reverse) (zip3 cd2 cdoc2 cm2) :=
    sorted_eq_of_perm_nodup_keys reverse hs12
      (List.sorted_insertionSort (sortKeyLe reverse) (zip3 cd cdoc cm))
      (List.sorted_insertionSort (sortKeyLe reverse) (zip3 cd2 cdoc2 cm2))
      hnds1
  rw [merge_eq_some hc k reverse, merge_eq_some hc2 k reverse, heq]

/-- Witness for the amended C8: permuting two well-formed results with
pairwise distinct distances leaves the fused output unchanged. -/
theorem C8_fusion_perm_invariance_witness :
    merge_and_sort_query_results [exPair, exTieA] 2 true =
      merge_and_sort_query_results [exTieA, exPair] 2 true :=
  C8_fusion_perm_invariance [exPair, exTieA] [exTieA, exPair] 2 true
    [3, 1, 0] [10, 20, 1] [5, 6, 1]
    (List.Perm.swap exTieA exPair []) (by decide) (by decide) (by decide)

/-- C9: any embedding engine outside the supported set `""`, `"ollama"`,
`"openai"`, `"nvidia"` makes `get_embedding_function` raise the
unsupported-engine error immediately; no branch supplies a fallback. -/
theorem C9_unknown_engine (embedding_engine embedding_model : String)
    (h : embedding_engine ∉ (["", "ollama", "openai", "nvidia"] : List String)) :
    get_embedding_function embedding_engine embedding_model =
      Except.error ("Unsupported embedding engine: " ++ embedding_engine) := by
  simp only [List.mem_cons, List.not_mem_nil, or_false, not_or] at h
  obtain ⟨h1, h2, h3, h4⟩ := h
  simp [get_embedding_function, h1, h2, h3, h4]

/-- Witness for C9 at the unsupported engine name "fake". -/
theorem C9_unknown_engine_witness :
    get_embedding_function "fake" "model" =
      Except.error ("Unsupported embedding engine: " ++ "fake") :=
  C9_unknown_engine "fake" "model" (by decide)

/-- C10: whenever fusion returns, its three row-0 arrays share one common
length, namely `k` clipped to the shortest of the three combined totals —
ragged inputs are silently truncated by the zip to the shortest combined
column, never raising and never producing unequal output arrays. -/
theorem C10_fusion_zip_truncation {α β γ : Type} [LinearOrder α]
    (results : List (QueryResult α β γ)) (k : Nat) (reverse : Bool)
    (out : QueryResult α β γ)
    (h : merge_and_sort_query_results results k reverse = some out) :
    ∃ sd sdoc sm, out = ⟨[sd], [sdoc], [sm]⟩ ∧
      sd.length = sdoc.length ∧ sdoc.length = sm.length ∧
      sd.length =
        min k (min (totalDistances results)
          (min (totalDocuments results) (totalMetadatas results))) := by
  cases hc : combineRows results with
  | none =>
    unfold merge_and_sort_query_results at h
    rw [hc] at h
    simp at h
  | some triple =>
    obtain ⟨cd, cdoc, cm⟩ := triple
    rw [merge_eq_some hc k reverse] at h
    obtain rfl := Option.some.inj h
    refine ⟨_, _, _, rfl, ?_, ?_, ?_⟩
    all_goals
      have hslen :
          ((List.insertionSort (sortKeyLe reverse) (zip3 cd cdoc cm)).take k).length =
            min k (min cd.length (min cdoc.length cm.length)) := by
        rw [List.length_take,
          (List.perm_insertionSort (sortKeyLe reverse) (zip3 cd cdoc cm)).length_eq,
          zip3_length]
    all_goals
      obtain ⟨ht1, ht2, ht3⟩ := combined_length_distances hc
    all_goals
      simp only [List.length_map, hslen]
    all_goals omega

/-- Witness for C10 at a ragged input (row lengths 2, 1 and 3): the output
rows all have the common length 1. -/
theorem C10_fusion_zip_truncation_witness :
    ∃ sd sdoc sm,
      (⟨[[1]], [[5]], [[7]]⟩ : QueryResult Int Nat Nat) = ⟨[sd], [sdoc], [sm]⟩ ∧
      sd.length = sdoc.length ∧ sdoc.length = sm.length ∧
      sd.length =
        min 9 (min (totalDistances [exRagged])
          (min (totalDocuments [exRagged]) (totalMetadatas [exRagged]))) :=
  C10_fusion_zip_truncation [exRagged] 9 false ⟨[[1]], [[5]], [[7]]⟩ (by decide)

end Retrieval
